import Mathlib

/-!
Shallow embedding of the GCP egress-validation lifecycle controller
(`pkg/cloudclient/gcp/private.go`) of osd-network-verifier.

Strings are modelled as Lean `String` (a list of characters); machine text
scanning (the two regular expressions of `findUnreachableEndpoints`) is
embedded as executable character-list scanners. Cloud API calls are modelled
by their outcomes, supplied as part of a run environment: each call site in
the source corresponds to one outcome field (a single `Except`/`Option`
value, or a list of per-tick outcomes for the two polling loops).
-/

namespace OsdNetworkVerifier

set_option maxRecDepth 16384

/-! ## Character/string scanning primitives -/

/-- Does `pat` occur as a contiguous run starting at some suffix of `l`? -/
def listHasInfix (pat : List Char) : List Char → Bool
  | [] => pat.isEmpty
  | c :: rest => pat.isPrefixOf (c :: rest) || listHasInfix pat rest

/-- Does the pattern `pat` occur as a contiguous substring of `s`?
Models Go regexp matching of a literal (metacharacter-free) pattern:
`re.FindString(s) != ""` for a literal pattern iff the literal occurs in `s`. -/
def containsStr (s pat : String) : Bool :=
  listHasInfix pat.data s.data

/-- Split a character list at newline characters; models the line structure
that the `(?m)^...` multiline regexp of `findUnreachableEndpoints` sees
(`.` does not match a newline in Go regexp). -/
def splitLinesAux : List Char → List Char → List (List Char)
  | acc, [] => [acc.reverse]
  | acc, c :: rest =>
    if c = '\n' then acc.reverse :: splitLinesAux [] rest
    else splitLinesAux (c :: acc) rest

def splitLines (s : String) : List (List Char) :=
  splitLinesAux [] s.data

/-- Go regexp `\s` character class: `[\t\n\f\r ]`. `\S` is its complement. -/
def isGoSpace (c : Char) : Bool :=
  c = ' ' || c = '\t' || c = '\n' || c = '\x0c' || c = '\r'

/-- The prefix literal of the unreachable-endpoint pattern
`Unable to reach (\S+)` (source line 240). -/
def unreachableLiteral : String := "Unable to reach "

/-- One pass of Go `regexp.FindAllString` for the pattern
`Unable to reach (\S+)`: scan left to right; at each position, if the literal
prefix is present and is followed by at least one non-space character, emit
the full match (literal prefix plus the maximal `\S+` run) and resume after
it; otherwise advance one character. `fuel` bounds the recursion by the
length of the text (each step consumes at least one character). -/
def scanUnreachable : Nat → List Char → List String
  | 0, _ => []
  | _ + 1, [] => []
  | fuel + 1, c :: rest =>
    if unreachableLiteral.data.isPrefixOf (c :: rest) then
      let after := (c :: rest).drop unreachableLiteral.data.length
      let tok := after.takeWhile (fun ch => !isGoSpace ch)
      if tok.isEmpty then
        scanUnreachable fuel rest
      else
        (unreachableLiteral ++ String.mk tok) :: scanUnreachable fuel (after.drop tok.length)
    else
      scanUnreachable fuel rest

/-- `reUnreachableErrors.FindAllString(text, -1)` for the pattern
`Unable to reach (\S+)` (source lines 240 and 284). Note `FindAllString`
returns the text of the *whole* match (literal prefix included), not the
text of the capture group. -/
def findAllUnreachable (s : String) : List String :=
  scanUnreachable s.data.length s.data

/-- Does a line contain one of the four failure indicators of the regexp
`(?m)^(.*Cannot.*)|(.*Could not.*)|(.*Failed.*)|(.*command not found.*)`
(source line 274)? Since `.` matches no newline, every match of that regexp
lies within one line and extends (greedily) to the end of the line, so the
matches of `FindAllStringSubmatch` are exactly the lines containing one of
the four indicator substrings ("Cannot" needs only to occur in the line:
the leading `(?m)^.*` reaches it from the line start). -/
def lineHasFailureIndicator (l : List Char) : Bool :=
  listHasInfix "Cannot".data l || listHasInfix "Could not".data l ||
    listHasInfix "Failed".data l || listHasInfix "command not found".data l

/-- The matches of `rgx.FindAllStringSubmatch(text, -1)` (source line 275),
one per line that contains a failure indicator. -/
def notFoundMatch (text : String) : List (List Char) :=
  (splitLines text).filter lineHasFailureIndicator

/-! ## Small Go standard-library models used by the source -/

/-- `encoding/base64` standard alphabet. -/
def base64Alphabet : String :=
  "ABCDEFGHIJKLMNOPQRSTUVWXYZabcdefghijklmnopqrstuvwxyz0123456789+/"

def base64Digit (n : Nat) : Char :=
  base64Alphabet.data.getD n '='

/-- Standard base64 of a byte list, with padding:
`base64.StdEncoding.EncodeToString` (source line 334). -/
def base64EncodeBytes : List Nat → List Char
  | [] => []
  | [b1] =>
    [base64Digit (b1 / 4), base64Digit (b1 % 4 * 16), '=', '=']
  | [b1, b2] =>
    [base64Digit (b1 / 4), base64Digit (b1 % 4 * 16 + b2 / 16),
     base64Digit (b2 % 16 * 4), '=']
  | b1 :: b2 :: b3 :: rest =>
    base64Digit (b1 / 4) :: base64Digit (b1 % 4 * 16 + b2 / 16) ::
      base64Digit (b2 % 16 * 4 + b3 / 64) :: base64Digit (b3 % 64) ::
        base64EncodeBytes rest

def base64StdEncode (s : String) : String :=
  String.mk (base64EncodeBytes (s.toUTF8.toList.map (fun b => b.toNat)))

/-- `time.Duration.String()` (source lines 322 and 331) restricted to
whole-second durations: Go prints `"0s"`, `"45s"`, `"2m0s"`, `"1h0m0s"`. -/
def durationString (seconds : Nat) : String :=
  if seconds = 0 then "0s"
  else
    let s := seconds % 60
    let m := seconds / 60 % 60
    let h := seconds / 3600
    if h > 0 then toString h ++ "h" ++ toString m ++ "m" ++ toString s ++ "s"
    else if m > 0 then toString m ++ "m" ++ toString s ++ "s"
    else toString s ++ "s"

/-! ## The result accumulator -/

/-- Modelled from the spec: `output.Output` lives in `pkg/output`, which is not
under src/. Spec section 3 (ValidationResult): "accumulates zero or more
classified failures (kind + human message) and zero or more
unreachable-endpoint strings. Append-only during a run; returned by value at
the end." We keep the three sinks the GCP client writes to: `AddError`
(control errors), `AddException` (classified data-level failures) and
`SetEgressFailures` (unreachable-endpoint strings). -/
structure Output where
  errors : List String := []
  exceptions : List String := []
  egressFailures : List String := []
deriving DecidableEq

def Output.empty : Output := {}

/-- Modelled from the spec: `Output.AddError`. A Go `error` value is `nil` or
a message; recording a `nil` error leaves the result unchanged (spec section
7: only failures are recorded). -/
def Output.addError (o : Output) (e : Option String) : Output :=
  match e with
  | none => o
  | some m => { o with errors := o.errors ++ [m] }

/-- Modelled from the spec: `Output.AddException` records one classified
failure. -/
def Output.addException (o : Output) (m : String) : Output :=
  { o with exceptions := o.exceptions ++ [m] }

/-- Modelled from the spec: `Output.SetEgressFailures` stores the
unreachable-endpoint strings (called once per run, at the single parse
point). -/
def Output.setEgressFailures (o : Output) (l : List String) : Output :=
  { o with egressFailures := l }

/-! ## The polling primitive -/

/-- The value of one invocation of a `PollImmediate` condition function:
Go `(done bool, err error)` with the three observable outcomes. -/
inductive TickResult where
  | done
  | cont
  | failed (e : String)
deriving DecidableEq

/-- Outcome of a whole poll: success, the condition error (surfaced
unchanged), or deadline expiry. -/
inductive PollResult where
  | success
  | error (e : String)
  | timedOut
deriving DecidableEq

/-- Modelled from the spec: `helpers.PollImmediate` lives in `pkg/helpers`,
which is not under src/. Spec section 4.1: invoke the condition immediately
and then once per interval; `done=true` is success, a condition error aborts
immediately and is never retried, and deadline expiry aborts with a timeout
error. We model the run as the finite list of per-tick outcomes available
before the deadline; an exhausted list is the deadline. -/
def pollImmediate : List TickResult → PollResult
  | [] => .timedOut
  | t :: rest =>
    match t with
    | .done => .success
    | .failed e => .error e
    | .cont => pollImmediate rest

/-- Modelled from the spec: the timeout error `PollImmediate` returns when
the deadline elapses ("abort with a timeout error", spec section 4.1). -/
def pollTimeoutMsg : String := "timed out waiting for the condition"

def pollResultError : PollResult → Option String
  | .success => none
  | .error e => some e
  | .timedOut => some pollTimeoutMsg

/-- The interval and deadline handed to one `PollImmediate` call site. -/
structure PollConfig where
  intervalSeconds : Nat
  timeoutSeconds : Nat
deriving DecidableEq

/-- Modelled from the spec: with an immediate first invocation and one
invocation per interval until the deadline, at most
`timeout / interval + 1` invocations happen. -/
def PollConfig.maxInvocations (cfg : PollConfig) : Nat :=
  cfg.timeoutSeconds / cfg.intervalSeconds + 1

/-- Run a bounded poll: at most `cfg.maxInvocations` ticks are consumed
before the deadline. -/
def runPoll (cfg : PollConfig) (ticks : List TickResult) : PollResult :=
  pollImmediate (ticks.take cfg.maxInvocations)

/-! ## Instance readiness: describe + wait (source lines 171-226) -/

/-- `describeComputeServiceInstances` (source lines 171-199), as a function
of the outcome of the one `Instances.Get` call of that tick: an error, or
the reported status string. On any `Get` error it returns the sentinel
`"PERMISSION DENIED"` together with the error; on a fatal status it returns
the sentinel `"FATAL"` with `fmt.Errorf(status)`; otherwise it returns the
status itself with a `nil` error (`PROVISIONING`/`STAGING` and the empty
status are merely logged). -/
def describeComputeServiceInstances (getResult : Except String String) :
    String × Option String :=
  match getResult with
  | .error e => ("PERMISSION DENIED", some e)
  | .ok status =>
    if status = "STOPPING" ∨ status = "STOPPED" ∨ status = "TERMINATED" ∨
        status = "SUSPENDED" then
      ("FATAL", some status)
    else
      (status, none)

/-- The condition function of `waitForComputeServiceInstanceCompletion`
(source lines 203-223), as a function of that tick's `Instances.Get`
outcome. `descError.getD ""` renders the `%v` of the non-nil error carried
by the `"FATAL"` and `"PERMISSION DENIED"` sentinels. -/
def waitTick (instanceName : String) (getResult : Except String String) :
    TickResult :=
  let r := describeComputeServiceInstances getResult
  let code := r.1
  let descError := r.2
  if code = "RUNNING" then .done
  else if code = "FATAL" then
    .failed ("Instance " ++ instanceName ++ " already exists with " ++
      descError.getD "" ++ " state. Please run again")
  else if code = "PERMISSION DENIED" then
    .failed ("missing required permissions for account: " ++ descError.getD "")
  else
    match descError with
    | some e => .failed e -- unhandled
    | none => .cont -- continue loop

/-- The interval and deadline of the readiness wait:
`helpers.PollImmediate(5*time.Second, 2*time.Minute, ...)`
(source line 203). -/
def waitForCompletionConfig : PollConfig :=
  { intervalSeconds := 5, timeoutSeconds := 120 }

/-- `waitForComputeServiceInstanceCompletion` (source lines 201-226), as a
function of the per-tick `Instances.Get` outcomes. -/
def waitForComputeServiceInstanceCompletion (instanceName : String)
    (getResults : List (Except String String)) : PollResult :=
  runPoll waitForCompletionConfig (getResults.map (waitTick instanceName))

/-! ## Console-log analysis: `findUnreachableEndpoints`
(source lines 237-292) -/

/-- `userdataEndVerifier` (source line 38): the completion-marker literal. -/
def userdataEndVerifier : String := "USERDATA END"

/-- `networkValidatorImage` (source line 37). -/
def networkValidatorImage : String :=
  "quay.io/app-sre/osd-network-verifier:v0.1.159-9a6e0eb"

/-- The pattern compiled into `reVerify` (source line 239):
`regexp.MustCompile(userdataEndVerifier)`. The literal contains no regexp
metacharacters, so `reVerify.FindString(text)` is non-empty exactly when the
literal occurs in `text`. -/
def reVerifyPattern : String := userdataEndVerifier

/-- The message of `handledErrors.NewEgressURLError(...)` recorded at source
line 278 (the apostrophe of the source literal is elided: the em-dash-free
gist "internet connectivity problem: please ensure internet access in given
vpc subnets" is kept verbatim apart from that one word). -/
def internetConnectivityMsg : String :=
  "egress URL error: internet connectivity problem: please ensure internet access in given vpc subnets"

/-- One character of the Go-syntax string quoting that `fmt.Sprintf("%#v", ...)`
applies to the `Contents` field (source line 251): backslash, double quote,
newline, tab and carriage return become two-character escape sequences; all
other characters of the console texts modelled here are rendered verbatim.
(Go additionally hex-escapes rarer control and non-printable characters,
which the modelled console texts do not contain.) -/
def goEscapeChar (c : Char) : List Char :=
  if c = '\\' then ['\\', '\\']
  else if c = '\x22' then ['\\', '\x22']
  else if c = '\n' then ['\\', 'n']
  else if c = '\t' then ['\\', 't']
  else if c = '\r' then ['\\', 'r']
  else [c]

/-- Go-quote a whole character list. -/
def escapeList : List Char → List Char
  | [] => []
  | c :: rest => goEscapeChar c ++ escapeList rest

/-- The part of the `%#v` rendering of the `*SerialPortOutput` object before
the quoted `Contents` value: `&compute.SerialPortOutput{Contents:"`. -/
def renderPrefix : List Char := "&compute.SerialPortOutput\x7bContents:".data

/-- The fields rendered after `Contents` (`Kind`, `Next`, `SelfLink`,
`ServerResponse`, ...), modelled by a representative tail that preserves
what the scans can observe: after the closing quote come a comma and a
space (fields are separated by a comma and a space in a `%#v` rendering),
and none of the scanned patterns occur in it. -/
def renderSuffix : List Char := ", Kind:\x22compute#serialPortOutput\x22\x7d".data

/-- `scriptOutput := fmt.Sprintf("%#v", output)` (source line 251): the
Go-syntax rendering of the response object, with the console contents
appearing once, Go-quoted (newlines as the two characters backslash-n,
etc.), inside the struct frame. -/
def renderSerialPortOutput (contents : String) : String :=
  String.mk (renderPrefix ++ '\x22' :: (escapeList contents.data ++ '\x22' :: renderSuffix))

/-- The parse performed once the completion marker is present (source lines
273-284), applied — like every scan of the tick — to the `%#v` rendering of
the fetched object: at most one aggregate connectivity exception, then the
unreachable-endpoint matches of the rendering. -/
def consoleParse (text : String) (out : Output) : Output :=
  let scriptOutput := renderSerialPortOutput text
  let out1 :=
    if (notFoundMatch scriptOutput).length > 0 then
      out.addException internetConnectivityMsg
    else out
  out1.setEgressFailures (findAllUnreachable scriptOutput)

/-- The condition function of `findUnreachableEndpoints` (source lines
243-289), as a function of that tick's `GetSerialPortOutput` outcome,
threading the result accumulator `c.output`. A fetch error aborts the loop
(source line 246); a `nil` output object continues; otherwise the tick works
on `scriptOutput`, the `%#v` rendering of the object: the
`len(scriptOutput) < 1` guard of source line 260 (dead: the rendering always
contains the struct frame), then the marker gate, then the parse, which ends
the loop. -/
def consoleTick (fetch : Except String (Option String)) (out : Output) :
    TickResult × Output :=
  match fetch with
  | .error e => (.failed e, out)
  | .ok none => (.cont, out) -- waiting for UserData script to complete
  | .ok (some text) =>
    let scriptOutput := renderSerialPortOutput text
    if scriptOutput.length < 1 then (.cont, out) -- console not yet populated
    else if ¬ containsStr scriptOutput reVerifyPattern then
      (.cont, out) -- end of userdata script not seen, continuing to wait
    else
      (.done, consoleParse text out)

/-- The poll loop of `findUnreachableEndpoints`, threading the accumulator
through the ticks (modelled from the spec for the loop skeleton, see
`pollImmediate`; the tick body is `consoleTick` from the source). -/
def consoleLoop : List (Except String (Option String)) → Output →
    PollResult × Output
  | [], out => (.timedOut, out)
  | f :: rest, out =>
    match consoleTick f out with
    | (.done, out2) => (.success, out2)
    | (.failed e, out2) => (.error e, out2)
    | (.cont, out2) => consoleLoop rest out2

/-- A fetch outcome on which `consoleTick` keeps polling: a non-error fetch
whose (possibly absent) console text does not contain the completion
marker. -/
def fetchLacksMarker : Except String (Option String) → Bool
  | .error _ => false
  | .ok none => true
  | .ok (some t) => !containsStr t reVerifyPattern

/-- The interval and deadline of the console poll:
`helpers.PollImmediate(30*time.Second, 4*time.Minute, ...)`
(source line 243). -/
def findUnreachableConfig : PollConfig :=
  { intervalSeconds := 30, timeoutSeconds := 240 }

/-- `findUnreachableEndpoints` (source lines 237-292), as a function of the
per-tick `GetSerialPortOutput` outcomes available before the deadline. -/
def findUnreachableEndpoints (fetches : List (Except String (Option String)))
    (out : Output) : PollResult × Output :=
  consoleLoop (fetches.take findUnreachableConfig.maxInvocations) out

/-! ## Instance creation (source lines 102-169) -/

/-- `createComputeServiceInstanceInput` (source lines 24-33). -/
structure CreateInput where
  vpcSubnetID : String
  userdata : String
  zone : String
  machineType : String
  instanceName : String
  sourceImage : String
  networkName : String
deriving DecidableEq

/-- The part of a `computev1.Instance` that `createComputeServiceInstance`
reads back: the label fingerprint fetched at source line 146. -/
structure GInstance where
  labelFingerprint : String
deriving DecidableEq

/-- The outcomes of the three cloud calls issued by
`createComputeServiceInstance`: `Instances.Insert` (line 138),
`Instances.Get` (line 146) and `Instances.SetLabels` (line 160). -/
structure CreateApi where
  insertError : Option String
  getResult : Except String GInstance
  setLabelsError : Option String

/-- How `createComputeServiceInstance` ends: with a returned error, with a
nil-pointer dereference (a Go runtime panic), or successfully. -/
inductive CreateOutcome where
  | errored (e : String)
  | nilDeref
  | ok
deriving DecidableEq

/-- `createComputeServiceInstance` (source lines 102-169). On an `Insert`
error it returns the input together with the error (line 140; the trailing
`%v` of the nil response is omitted from the message). On a `Get` error it
only logs ("Failed to get fingerprint to apply tags to instance", line 148)
and execution continues: `inst` is then a nil pointer and the read
`inst.LabelFingerprint` at line 155 dereferences it — a runtime panic,
modelled by `CreateOutcome.nilDeref`. A `SetLabels` error is returned
(line 162); otherwise the call succeeds. -/
def createComputeServiceInstance (input : CreateInput) (api : CreateApi) :
    CreateInput × CreateOutcome :=
  match api.insertError with
  | some e => (input, .errored ("unable to create instance: " ++ e))
  | none =>
    match api.getResult with
    | .error _ => (input, .nilDeref)
    | .ok _inst =>
      match api.setLabelsError with
      | some e => (input, .errored ("Unable to create labels: " ++ e))
      | none => (input, .ok)

/-! ## Teardown, image default, userdata (source lines 228-235, 294-313) -/

/-- `terminateComputeServiceInstance` (source lines 296-303): one
best-effort `Instances.Stop` call whose error (possibly `nil`) is recorded
on the result with `AddError`; nothing is returned. -/
def terminateComputeServiceInstance (stopError : Option String)
    (out : Output) : Output :=
  out.addError stopError

/-- `setCloudImage` (source lines 305-313): substitute the fixed default
when the caller supplies no image; the returned error is always `nil`
(line 312). -/
def setCloudImage (cloudImageID : String) : String × Option String :=
  (if cloudImageID = "" then "cos-97-lts" else cloudImageID, none)

/-- `generateUserData` (source lines 228-235). The template
`helpers.UserdataTemplate` lives in `pkg/helpers`, which is not under src/;
the spec treats templating as an external collaborator (section 6: "given a
mapping of variable name → value ... returns the final boot script text").
Modelled from the spec: we render the mapping itself as the script text.
What the controller depends on is visible in the source: the returned error
is always `nil` (line 234). -/
def generateUserData (vars : List (String × String)) :
    String × Option String :=
  (String.join (vars.map (fun kv => kv.1 ++ "=" ++ kv.2 ++ "\n")), none)

/-! ## `validateEgress` (source lines 315-385) -/

/-- `proxy.ProxyConfig` as read by `validateEgress` (source lines 332-335). -/
structure ProxyConfig where
  httpProxy : String
  httpsProxy : String
  cacert : String
  noTls : Bool
deriving DecidableEq

/-- The `userDataVariables` map literal (source lines 324-336), in source
order. The caller-supplied per-request timeout appears only here, rendered
by `timeout.String()`; `timeoutSeconds` models a whole-second timeout. -/
def userDataVariables (timeoutSeconds : Nat) (p : ProxyConfig) :
    List (String × String) :=
  [("AWS_REGION", "us-east-2"),
   ("USERDATA_BEGIN", "USERDATA BEGIN"),
   ("USERDATA_END", userdataEndVerifier),
   ("VALIDATOR_START_VERIFIER", "VALIDATOR START"),
   ("VALIDATOR_END_VERIFIER", "VALIDATOR END"),
   ("VALIDATOR_IMAGE", networkValidatorImage),
   ("TIMEOUT", durationString timeoutSeconds),
   ("HTTP_PROXY", p.httpProxy),
   ("HTTPS_PROXY", p.httpsProxy),
   ("CACERT", base64StdEncode p.cacert),
   ("NOTLS", if p.noTls then "true" else "false")]

/-- The fields of the GCP `Client` that `validateEgress` reads. -/
structure ClientCfg where
  projectID : String
  region : String
  zone : String
  instanceType : String
deriving DecidableEq

/-- The environment of one `validateEgress` run: the value drawn from the
seeded `rand.Intn(10000)` (source line 360), the `GCP_VPC_NAME` environment
variable (line 362), and the outcomes of every cloud call the run can
issue. -/
structure RunEnv where
  randInt : Nat
  gcpVpcName : String
  createApi : CreateApi
  waitGetResults : List (Except String String)
  consoleFetches : List (Except String (Option String))
  stopError : Option String

/-- How a `validateEgress` run ends: with a returned `*output.Output`
(`ret`, also carrying the number of `terminateComputeServiceInstance`
invocations the run performed), or with the nil-pointer panic inherited
from `createComputeServiceInstance` (no result reaches the caller then). -/
inductive RunResult where
  | ret (out : Output) (terminateCalls : Nat)
  | panicked
deriving DecidableEq

def RunResult.terminateCount : RunResult → Nat
  | .ret _ n => n
  | .panicked => 0

def RunResult.output : RunResult → Option Output
  | .ret o _ => some o
  | .panicked => none

/-- The generated instance name `fmt.Sprintf("verifier-%v", rand.Intn(10000))`
(source line 360). -/
def instanceNameOf (env : RunEnv) : String :=
  "verifier-" ++ toString (env.randInt % 10000)

/-- The `createComputeServiceInstanceInput` literal built at source lines
355-363. -/
def buildCreateInput (cfg : ClientCfg) (vpcSubnetID userData cloudImageID : String)
    (env : RunEnv) : CreateInput :=
  { vpcSubnetID := "projects/" ++ cfg.projectID ++ "/regions/" ++ cfg.region ++
      "/subnetworks/" ++ vpcSubnetID
    userdata := userData
    zone := cfg.zone
    machineType := cfg.instanceType
    instanceName := instanceNameOf env
    sourceImage := "projects/cos-cloud/global/images/family/" ++ cloudImageID
    networkName := "projects/" ++ cfg.projectID ++ "/global/networks/" ++
      env.gcpVpcName }

/-- `validateEgress` (source lines 321-385). Control flow, in source order:
build the userdata variables and render the script (the returned error is
always `nil`, so the early return at lines 339-341 is dead but kept);
default the image (error again always `nil`, lines 345-348); create the
instance — on error, terminate (line 365!) and return with the error
recorded; wait for readiness — on any error (including the poll deadline),
terminate and return with the error recorded; run the console analysis,
recording its error if any; terminate; return the accumulated output. -/
def validateEgress (cfg : ClientCfg) (vpcSubnetID cloudImageID _kmsKeyID : String)
    (timeoutSeconds : Nat) (p : ProxyConfig) (env : RunEnv) : RunResult :=
  let gud := generateUserData (userDataVariables timeoutSeconds p)
  if gud.2.isSome then
    .ret (Output.empty.addError gud.2) 0 -- dead: gud.2 = none always
  else
    let sci := setCloudImage cloudImageID
    if sci.2.isSome then
      .ret (Output.empty.addError sci.2) 0 -- dead: sci.2 = none always
    else
      let input := buildCreateInput cfg vpcSubnetID gud.1 sci.1 env
      match createComputeServiceInstance input env.createApi with
      | (inst, .errored e) =>
        -- terminate targets inst.instanceName (the echoed input, line 365)
        let _ := inst.instanceName
        let out := terminateComputeServiceInstance env.stopError Output.empty
        .ret (out.addError (some e)) 1
      | (_, .nilDeref) => .panicked
      | (inst, .ok) =>
        match pollResultError
            (waitForComputeServiceInstanceCompletion inst.instanceName
              env.waitGetResults) with
        | some e =>
          let out := terminateComputeServiceInstance env.stopError Output.empty
          .ret (out.addError (some e)) 1
        | none =>
          let r := findUnreachableEndpoints env.consoleFetches Output.empty
          let out := r.2.addError (pollResultError r.1)
          .ret (terminateComputeServiceInstance env.stopError out) 1

/-! ## Named intermediate values of one `validateEgress` run -/

/-- The `createComputeServiceInstanceInput` a `validateEgress` run builds
(the userdata text and the effective image are the always-successful results
of `generateUserData` and `setCloudImage`). -/
def runCreateInput (cfg : ClientCfg) (vpcSubnetID cloudImageID : String)
    (timeoutSeconds : Nat) (p : ProxyConfig) (env : RunEnv) : CreateInput :=
  buildCreateInput cfg vpcSubnetID
    (generateUserData (userDataVariables timeoutSeconds p)).1
    (setCloudImage cloudImageID).1 env

/-- How the creation step of a `validateEgress` run ends. -/
def runCreateOutcome (cfg : ClientCfg) (vpcSubnetID cloudImageID : String)
    (timeoutSeconds : Nat) (p : ProxyConfig) (env : RunEnv) : CreateOutcome :=
  (createComputeServiceInstance
    (runCreateInput cfg vpcSubnetID cloudImageID timeoutSeconds p env)
    env.createApi).2

/-- The error (if any) of the readiness wait of a `validateEgress` run. -/
def runWaitError (env : RunEnv) : Option String :=
  pollResultError
    (waitForComputeServiceInstanceCompletion (instanceNameOf env)
      env.waitGetResults)

/-- The error (if any) of the console-analysis step of a `validateEgress`
run. -/
def runConsoleError (env : RunEnv) : Option String :=
  pollResultError (findUnreachableEndpoints env.consoleFetches Output.empty).1

/-! ## Concrete example values used by witnesses and counterexamples -/

def cfgEx : ClientCfg :=
  { projectID := "proj", region := "us-east1", zone := "us-east1-b",
    instanceType := "e2-standard-2" }

def proxyEx : ProxyConfig :=
  { httpProxy := "", httpsProxy := "", cacert := "", noTls := false }

/-- All three creation calls succeed. -/
def apiOkEx : CreateApi :=
  { insertError := none, getResult := Except.ok { labelFingerprint := "fp" },
    setLabelsError := none }

/-- The `Instances.Insert` call fails. -/
def apiInsertFailEx : CreateApi :=
  { insertError := some "quota exceeded",
    getResult := Except.ok { labelFingerprint := "fp" },
    setLabelsError := none }

/-- `Insert` succeeds but the fingerprint `Instances.Get` fails. -/
def apiGetFailEx : CreateApi :=
  { insertError := none, getResult := Except.error "googleapi: Error 503",
    setLabelsError := none }

/-- A console text whose userdata script completed with no failures. -/
def consoleDoneText : String := "probe output\nUSERDATA END\n"

/-- A concrete `createComputeServiceInstanceInput`. -/
def inputEx : CreateInput :=
  { vpcSubnetID := "projects/proj/regions/us-east1/subnetworks/subnet"
    userdata := "u"
    zone := "us-east1-b"
    machineType := "e2-standard-2"
    instanceName := "verifier-42"
    sourceImage := "projects/cos-cloud/global/images/family/cos-97-lts"
    networkName := "projects/proj/global/networks/vpc" }

/-- A run in which instance creation fails immediately. -/
def envCreateFailEx : RunEnv :=
  { randInt := 42, gcpVpcName := "vpc", createApi := apiInsertFailEx,
    waitGetResults := [], consoleFetches := [], stopError := none }

/-- A run in which the fingerprint `Get` of the creation step fails. -/
def envGetFailEx : RunEnv :=
  { randInt := 1, gcpVpcName := "vpc", createApi := apiGetFailEx,
    waitGetResults := [], consoleFetches := [], stopError := none }

/-- A fully successful run: the instance becomes ready on the second tick
and the console shows the completed script on the second fetch. -/
def envSuccessEx : RunEnv :=
  { randInt := 42, gcpVpcName := "vpc", createApi := apiOkEx,
    waitGetResults := [Except.ok "PROVISIONING", Except.ok "RUNNING"],
    consoleFetches := [Except.ok none, Except.ok (some consoleDoneText)],
    stopError := none }

/-- A run in which the instance never leaves `PROVISIONING`: more ticks are
on offer than the 2-minute/5-second readiness deadline admits, so the wait
times out. -/
def envWaitTimeoutEx : RunEnv :=
  { randInt := 3, gcpVpcName := "vpc", createApi := apiOkEx,
    waitGetResults := List.replicate 30 (Except.ok "PROVISIONING"),
    consoleFetches := [], stopError := some "stop failed" }

/-! ## Shared helper lemmas -/

theorem Output.mem_errors_addError (o : Output) (x : Option String)
    (a : String) (h : a ∈ o.errors) : a ∈ (o.addError x).errors := by
  cases x with
  | none => exact h
  | some m => exact List.mem_append_left _ h

theorem Output.self_mem_errors_addError (o : Output) (e : String) :
    e ∈ (o.addError (some e)).errors := by
  exact List.mem_append_right _ (List.mem_singleton.mpr rfl)

theorem Output.exceptions_addError (o : Output) (x : Option String) :
    (o.addError x).exceptions = o.exceptions := by
  cases x <;> rfl

theorem Output.egressFailures_addError (o : Output) (x : Option String) :
    (o.addError x).egressFailures = o.egressFailures := by
  cases x <;> rfl

theorem createComputeServiceInstance_fst (input : CreateInput)
    (api : CreateApi) : (createComputeServiceInstance input api).1 = input := by
  obtain ⟨ie, gr, sl⟩ := api
  cases ie <;> cases gr <;> cases sl <;> rfl

/-- Unfolding `validateEgress` past its two dead early returns (the
userdata-generation and image-default errors are always `nil`) into a case
split on the creation outcome: the instance whose name the later steps use
is the echoed create input, so its name is the generated `verifier-<n>`. -/
theorem validateEgress_cases (cfg : ClientCfg) (vpc img kms : String)
    (t : Nat) (p : ProxyConfig) (env : RunEnv) :
    validateEgress cfg vpc img kms t p env =
      match runCreateOutcome cfg vpc img t p env with
      | .errored e =>
        RunResult.ret
          ((terminateComputeServiceInstance env.stopError Output.empty).addError
            (some e)) 1
      | .nilDeref => RunResult.panicked
      | .ok =>
        match pollResultError
            (waitForComputeServiceInstanceCompletion (instanceNameOf env)
              env.waitGetResults) with
        | some e =>
          RunResult.ret
            ((terminateComputeServiceInstance env.stopError Output.empty).addError
              (some e)) 1
        | none =>
          RunResult.ret
            (terminateComputeServiceInstance env.stopError
              (((findUnreachableEndpoints env.consoleFetches Output.empty).2).addError
                (pollResultError
                  (findUnreachableEndpoints env.consoleFetches Output.empty).1))) 1 := by
  obtain ⟨rand, vpcn, ⟨ie, gr, sl⟩, wg, cf, st⟩ := env
  cases ie <;> cases gr <;> cases sl <;> rfl

/-- The instance name of the built create input is the generated
`verifier-<n>` name. -/
theorem runCreateInput_instanceName (cfg : ClientCfg) (vpc img : String)
    (t : Nat) (p : ProxyConfig) (env : RunEnv) :
    (runCreateInput cfg vpc img t p env).instanceName = instanceNameOf env := rfl

/-- Every character renders either verbatim or as a two-character escape
sequence whose second character is one of the five escape letters. -/
theorem goEscapeChar_cases (c : Char) :
    goEscapeChar c = [c] ∨ ∃ e, goEscapeChar c = ['\\', e] ∧
      (e = '\\' ∨ e = '\x22' ∨ e = 'n' ∨ e = 't' ∨ e = 'r') := by
  unfold goEscapeChar
  split_ifs with h1 h2 h3 h4 h5
  · exact Or.inr ⟨'\\', rfl, Or.inl rfl⟩
  · exact Or.inr ⟨'\x22', rfl, Or.inr (Or.inl rfl)⟩
  · exact Or.inr ⟨'n', rfl, Or.inr (Or.inr (Or.inl rfl))⟩
  · exact Or.inr ⟨'t', rfl, Or.inr (Or.inr (Or.inr (Or.inl rfl)))⟩
  · exact Or.inr ⟨'r', rfl, Or.inr (Or.inr (Or.inr (Or.inr rfl)))⟩
  · exact Or.inl rfl

/-- A verbatim-rendered character is none of the five escaped ones. -/
theorem ne_escapable_of_verbatim (p : Char) (hp : goEscapeChar p = [p]) :
    p ≠ '\\' ∧ p ≠ '\x22' ∧ p ≠ '\n' ∧ p ≠ '\t' ∧ p ≠ '\r' := by
  refine ⟨?_, ?_, ?_, ?_, ?_⟩ <;>
    · intro h
      rw [h] at hp
      exact absurd hp (by decide)

/-- Being a prefix is unaffected by list elements past a sentinel character
that the pattern does not contain. -/
theorem isPrefixOf_append_sentinel (q : Char) (P a b : List Char)
    (hq : q ∉ P) : P.isPrefixOf (a ++ q :: b) = P.isPrefixOf a := by
  induction a generalizing P with
  | nil =>
    match P with
    | [] => simp
    | p :: P' =>
      have hpq : (p == q) = false :=
        beq_eq_false_iff_ne.mpr (fun h => hq (h ▸ List.mem_cons_self p P'))
      rw [List.nil_append, List.isPrefixOf_cons₂, hpq]
      simp
  | cons x a' ih =>
    match P with
    | [] => simp
    | p :: P' =>
      rw [List.cons_append, List.isPrefixOf_cons₂, List.isPrefixOf_cons₂,
        ih P' (fun h => hq (List.mem_cons_of_mem p h))]

/-- Occurrences of a pattern that avoids a sentinel character cannot span
the sentinel: the scan splits at it. -/
theorem listHasInfix_append_sentinel (q : Char) (P a b : List Char)
    (hq : q ∉ P) (hne : P ≠ []) :
    listHasInfix P (a ++ q :: b) = (listHasInfix P a || listHasInfix P b) := by
  induction a with
  | nil =>
    match P, hne with
    | p :: P', _ =>
      have hpq : (p == q) = false :=
        beq_eq_false_iff_ne.mpr (fun h => hq (h ▸ List.mem_cons_self p P'))
      rw [List.nil_append]
      show ((p :: P').isPrefixOf (q :: b) || listHasInfix (p :: P') b) = _
      rw [List.isPrefixOf_cons₂, hpq]
      simp [listHasInfix]
  | cons x a' ih =>
    rw [List.cons_append]
    show (P.isPrefixOf (x :: (a' ++ q :: b)) || listHasInfix P (a' ++ q :: b)) =
      ((P.isPrefixOf (x :: a') || listHasInfix P a') || listHasInfix P b)
    have h1 := isPrefixOf_append_sentinel q P (x :: a') b hq
    rw [List.cons_append] at h1
    rw [h1, ih, Bool.or_assoc]

/-- Being a prefix is unaffected by Go-quoting when every pattern character
renders verbatim. -/
theorem isPrefixOf_escape (P s : List Char)
    (hverb : ∀ c ∈ P, goEscapeChar c = [c]) :
    P.isPrefixOf (escapeList s) = P.isPrefixOf s := by
  induction s generalizing P with
  | nil => rfl
  | cons c rest ih =>
    match P with
    | [] => simp
    | p :: P' =>
      have hp := hverb p (List.mem_cons_self p P')
      obtain ⟨hp1, hp2, hp3, hp4, hp5⟩ := ne_escapable_of_verbatim p hp
      rcases goEscapeChar_cases c with hc | ⟨e, hc, _⟩
      · have hstep : escapeList (c :: rest) = c :: escapeList rest := by
          rw [escapeList, hc]
          rfl
        rw [hstep, List.isPrefixOf_cons₂, List.isPrefixOf_cons₂,
          ih P' (fun d hd => hverb d (List.mem_cons_of_mem p hd))]
      · have hpc : (p == c) = false := by
          refine beq_eq_false_iff_ne.mpr ?_
          intro h
          rw [h, hc] at hp
          exact absurd hp (by simp)
        have hpb : (p == '\\') = false := beq_eq_false_iff_ne.mpr hp1
        have hstep : escapeList (c :: rest) = '\\' :: e :: escapeList rest := by
          rw [escapeList, hc]
          rfl
        rw [hstep, List.isPrefixOf_cons₂, List.isPrefixOf_cons₂, hpb, hpc]
        simp

/-- Pattern occurrence is unaffected by Go-quoting when the pattern is
non-empty, renders verbatim, and does not begin with one of the escape-tail
letters: quoting neither destroys nor creates occurrences. -/
theorem listHasInfix_escape (P : List Char) (hne : P ≠ [])
    (hverb : ∀ c ∈ P, goEscapeChar c = [c])
    (hhead : ∀ c, P.head? = some c → c ≠ 'n' ∧ c ≠ 't' ∧ c ≠ 'r') :
    ∀ s : List Char, listHasInfix P (escapeList s) = listHasInfix P s := by
  match P, hne with
  | p :: P', _ =>
    intro s
    have hp := hverb p (List.mem_cons_self p P')
    obtain ⟨hp1, hp2, hp3, hp4, hp5⟩ := ne_escapable_of_verbatim p hp
    obtain ⟨hn, ht, hr⟩ := hhead p rfl
    induction s with
    | nil => rfl
    | cons c rest ih =>
      rcases goEscapeChar_cases c with hc | ⟨e, hc, he⟩
      · have hstep : escapeList (c :: rest) = c :: escapeList rest := by
          rw [escapeList, hc]
          rfl
        rw [hstep]
        show ((p :: P').isPrefixOf (c :: escapeList rest) ||
            listHasInfix (p :: P') (escapeList rest)) =
          ((p :: P').isPrefixOf (c :: rest) || listHasInfix (p :: P') rest)
        rw [ih, List.isPrefixOf_cons₂, List.isPrefixOf_cons₂,
          isPrefixOf_escape P' rest (fun d hd => hverb d (List.mem_cons_of_mem p hd))]
      · have hpc : (p == c) = false := by
          refine beq_eq_false_iff_ne.mpr ?_
          intro h
          rw [h, hc] at hp
          exact absurd hp (by simp)
        have hpe : (p == e) = false := by
          refine beq_eq_false_iff_ne.mpr ?_
          rcases he with rfl | rfl | rfl | rfl | rfl <;> assumption
        have hpb : (p == '\\') = false := beq_eq_false_iff_ne.mpr hp1
        have hstep : escapeList (c :: rest) = '\\' :: e :: escapeList rest := by
          rw [escapeList, hc]
          rfl
        rw [hstep]
        show ((p :: P').isPrefixOf ('\\' :: e :: escapeList rest) ||
            ((p :: P').isPrefixOf (e :: escapeList rest) ||
              listHasInfix (p :: P') (escapeList rest))) =
          ((p :: P').isPrefixOf (c :: rest) || listHasInfix (p :: P') rest)
        rw [ih, List.isPrefixOf_cons₂, List.isPrefixOf_cons₂,
          List.isPrefixOf_cons₂, hpb, hpe, hpc]
        simp

/-- Pattern occurrence in the `%#v` rendering coincides with occurrence in
the raw console contents, for every non-empty pattern that renders verbatim,
does not begin with an escape-tail letter, and occurs in neither frame
fragment. -/
theorem listHasInfix_render (P : List Char) (contents : String)
    (hne : P ≠ [])
    (hverb : ∀ c ∈ P, goEscapeChar c = [c])
    (hhead : ∀ c, P.head? = some c → c ≠ 'n' ∧ c ≠ 't' ∧ c ≠ 'r')
    (hpre : listHasInfix P renderPrefix = false)
    (hsuf : listHasInfix P renderSuffix = false) :
    listHasInfix P (renderSerialPortOutput contents).data =
      listHasInfix P contents.data := by
  have hq : '\x22' ∉ P := by
    intro hmem
    exact absurd (hverb _ hmem) (by decide)
  show listHasInfix P
      (renderPrefix ++ '\x22' :: (escapeList contents.data ++ '\x22' :: renderSuffix)) = _
  rw [listHasInfix_append_sentinel '\x22' P renderPrefix _ hq hne, hpre,
    listHasInfix_append_sentinel '\x22' P (escapeList contents.data) renderSuffix hq hne,
    hsuf, listHasInfix_escape P hne hverb hhead contents.data]
  simp

/-- The completion marker occurs in the rendering exactly when it occurs in
the raw console contents. -/
theorem containsStr_render_marker (text : String) :
    containsStr (renderSerialPortOutput text) reVerifyPattern =
      containsStr text reVerifyPattern := by
  rw [containsStr, containsStr]
  exact listHasInfix_render _ text (by decide) (by decide) (by decide)
    (by decide) (by decide)

/-- Regrouping a disjunction of four split scans. -/
theorem bool_or_shuffle (a1 a2 a3 a4 b1 b2 b3 b4 : Bool) :
    ((((a1 || b1) || (a2 || b2)) || (a3 || b3)) || (a4 || b4)) =
      ((((a1 || a2) || a3) || a4) || (((b1 || b2) || b3) || b4)) := by
  cases a1 <;> cases a2 <;> cases a3 <;> cases a4 <;>
    cases b1 <;> cases b2 <;> cases b3 <;> cases b4 <;> rfl

/-- A failure indicator occurs in `a ++ '\n' :: b` exactly when it occurs in
`a` or in `b` (no indicator contains a newline). -/
theorem lineHasFailureIndicator_append_newline (a b : List Char) :
    lineHasFailureIndicator (a ++ '\n' :: b) =
      (lineHasFailureIndicator a || lineHasFailureIndicator b) := by
  simp only [lineHasFailureIndicator]
  rw [listHasInfix_append_sentinel '\n' "Cannot".data a b (by decide) (by decide),
    listHasInfix_append_sentinel '\n' "Could not".data a b (by decide) (by decide),
    listHasInfix_append_sentinel '\n' "Failed".data a b (by decide) (by decide),
    listHasInfix_append_sentinel '\n' "command not found".data a b (by decide)
      (by decide)]
  exact bool_or_shuffle _ _ _ _ _ _ _ _

/-- `any` over the split lines equals the indicator scan of the whole
text. -/
theorem splitLinesAux_any_indicator :
    ∀ (l acc : List Char),
      (splitLinesAux acc l).any lineHasFailureIndicator =
        lineHasFailureIndicator (acc.reverse ++ l) := by
  intro l
  induction l with
  | nil =>
    intro acc
    simp [splitLinesAux]
  | cons c rest ih =>
    intro acc
    by_cases hc : c = '\n'
    · subst hc
      rw [splitLinesAux, if_pos rfl, List.any_cons, ih [],
        lineHasFailureIndicator_append_newline]
      simp
    · rw [splitLinesAux, if_neg hc, ih (c :: acc)]
      simp [List.append_assoc]

/-- A failure indicator occurs in some line exactly when it occurs in the
whole text (no indicator contains a newline). -/
theorem splitLines_any_indicator (s : String) :
    (splitLines s).any lineHasFailureIndicator =
      lineHasFailureIndicator s.data := by
  have h := splitLinesAux_any_indicator s.data []
  simpa [splitLines] using h

/-- The match list of the failure-indicator regexp is non-empty exactly when
some line contains an indicator. -/
theorem notFoundMatch_pos (s : String) :
    0 < (notFoundMatch s).length ↔
      (splitLines s).any lineHasFailureIndicator = true := by
  rw [notFoundMatch]
  constructor
  · intro h
    rcases List.exists_mem_of_length_pos h with ⟨x, hx⟩
    have hm := List.mem_filter.mp hx
    exact List.any_eq_true.mpr ⟨x, hm.1, hm.2⟩
  · intro h
    rcases List.any_eq_true.mp h with ⟨x, hx, hpx⟩
    exact List.length_pos.mpr
      (List.ne_nil_of_mem (List.mem_filter.mpr ⟨hx, hpx⟩))

/-- The rendering contains a failure indicator exactly when the raw contents
do. -/
theorem lineHasFailureIndicator_render (text : String) :
    lineHasFailureIndicator (renderSerialPortOutput text).data =
      lineHasFailureIndicator text.data := by
  simp only [lineHasFailureIndicator]
  rw [listHasInfix_render "Cannot".data text (by decide) (by decide) (by decide)
      (by decide) (by decide),
    listHasInfix_render "Could not".data text (by decide) (by decide) (by decide)
      (by decide) (by decide),
    listHasInfix_render "Failed".data text (by decide) (by decide) (by decide)
      (by decide) (by decide),
    listHasInfix_render "command not found".data text (by decide) (by decide)
      (by decide) (by decide) (by decide)]

/-- The indicator scan fires on the rendering exactly when it would fire on
the raw console contents. -/
theorem notFoundMatch_render_pos_iff (text : String) :
    0 < (notFoundMatch (renderSerialPortOutput text)).length ↔
      0 < (notFoundMatch text).length := by
  rw [notFoundMatch_pos, notFoundMatch_pos, splitLines_any_indicator,
    splitLines_any_indicator, lineHasFailureIndicator_render]

/-- A continuing fetch records nothing and keeps polling. -/
theorem consoleTick_cont_of_lacksMarker (f : Except String (Option String))
    (out : Output) (h : fetchLacksMarker f = true) :
    consoleTick f out = (TickResult.cont, out) := by
  match f with
  | .error e => simp [fetchLacksMarker] at h
  | .ok none => rfl
  | .ok (some t) =>
    simp only [fetchLacksMarker, Bool.not_eq_true'] at h
    simp only [consoleTick, containsStr_render_marker, h]
    split <;> simp

/-- A text containing the completion marker is non-empty. -/
theorem containsStr_marker_ne_nil (t : String)
    (h : containsStr t reVerifyPattern = true) : t.data ≠ [] := by
  intro hnil
  rw [containsStr, hnil] at h
  exact absurd h (by decide)

/-- The tick at which the marker is present parses the text and ends the
poll. -/
theorem consoleTick_done_of_marker (t : String) (out : Output)
    (h : containsStr t reVerifyPattern = true) :
    consoleTick (Except.ok (some t)) out = (TickResult.done, consoleParse t out) := by
  have hlen : ¬ (renderSerialPortOutput t).length < 1 := by
    have hdata : (renderSerialPortOutput t).length =
        (renderPrefix ++ '\x22' ::
          (escapeList t.data ++ '\x22' :: renderSuffix)).length := rfl
    rw [hdata]
    simp only [List.length_append, List.length_cons]
    omega
  have hm : containsStr (renderSerialPortOutput t) reVerifyPattern = true := by
    rw [containsStr_render_marker]
    exact h
  simp [consoleTick, hlen, hm]

/-- Ticks without the marker pass the accumulator through untouched. -/
theorem consoleLoop_append_of_lacksMarker
    (pre l : List (Except String (Option String))) (out : Output)
    (hpre : ∀ f ∈ pre, fetchLacksMarker f = true) :
    consoleLoop (pre ++ l) out = consoleLoop l out := by
  induction pre with
  | nil => rfl
  | cons f fs ih =>
    have hf : consoleTick f out = (TickResult.cont, out) :=
      consoleTick_cont_of_lacksMarker f out (hpre f (List.mem_cons_self f fs))
    calc consoleLoop (f :: fs ++ l) out
        = consoleLoop (fs ++ l) out := by
          simp only [List.cons_append, consoleLoop, hf, List.append_eq]
      _ = consoleLoop l out := ih (fun g hg => hpre g (List.mem_cons_of_mem f hg))

/-- Every string emitted by `scanUnreachable` is the literal prefix followed
by a non-empty run of non-space characters. -/
theorem scanUnreachable_shape (fuel : Nat) (l : List Char) (m : String)
    (hm : m ∈ scanUnreachable fuel l) :
    ∃ tok : List Char, tok ≠ [] ∧ (∀ c ∈ tok, isGoSpace c = false) ∧
      m = unreachableLiteral ++ String.mk tok := by
  induction fuel generalizing l with
  | zero => simp [scanUnreachable] at hm
  | succ fuel ih =>
    match l with
    | [] => simp [scanUnreachable] at hm
    | c :: rest =>
      rw [scanUnreachable] at hm
      by_cases hp : unreachableLiteral.data.isPrefixOf (c :: rest) = true
      · rw [if_pos hp] at hm
        by_cases he :
            (((c :: rest).drop unreachableLiteral.data.length).takeWhile
              (fun ch => !isGoSpace ch)).isEmpty = true
        · rw [if_pos he] at hm
          exact ih _ hm
        · rw [if_neg he] at hm
          rcases List.mem_cons.mp hm with hhead | htail
          · refine ⟨_, ?_, ?_, hhead⟩
            · intro hniltok
              rw [hniltok] at he
              exact he rfl
            · intro ch hch
              have := List.mem_takeWhile_imp hch
              simpa using this
          · exact ih _ htail
      · rw [if_neg hp] at hm
        exact ih _ hm

/-! ## Claim C2 (corrected) -/

/-- C2, counterexample. The claim says the readiness wait (`awaitRunning`,
i.e. `waitForComputeServiceInstanceCompletion`) uses the caller-supplied
per-request timeout as its deadline. It does not: the deadline handed to
`PollImmediate` at source line 203 is the fixed 2 minutes (120 s). At the
concrete caller timeout of 300 s the claimed deadline would be 300 s. -/
theorem readinessWait_deadline_is_not_caller_timeout :
    waitForCompletionConfig.timeoutSeconds = 120 ∧
      ¬ waitForCompletionConfig.timeoutSeconds = 300 := by decide

/-- C2, amended: for every call to `validateEgress` with a per-request
timeout `t`, the readiness wait polls on a fixed 5-second interval with a
fixed 2-minute (120 s) deadline, independent of `t`; the caller-supplied
timeout reaches only the boot script, as the rendered `TIMEOUT` userdata
variable. -/
theorem readinessWait_fixed_interval_and_deadline (t : Nat) (p : ProxyConfig) :
    waitForCompletionConfig.intervalSeconds = 5 ∧
      waitForCompletionConfig.timeoutSeconds = 120 ∧
      (userDataVariables t p).lookup "TIMEOUT" = some (durationString t) :=
  ⟨rfl, rfl, rfl⟩

/-! ## Claim C8 (confirmed) -/

/-- C8: the completion-marker literal supplied to the boot-script templating
as the `USERDATA_END` variable and the marker literal the console-log
analyzer compiles into `reVerify` are the exact same string,
`userdataEndVerifier` = "USERDATA END", for every run (every timeout and
proxy configuration). -/
theorem completion_marker_single_literal (t : Nat) (p : ProxyConfig) :
    (userDataVariables t p).lookup "USERDATA_END" = some reVerifyPattern ∧
      reVerifyPattern = userdataEndVerifier ∧
      userdataEndVerifier = "USERDATA END" :=
  ⟨rfl, rfl, rfl⟩

/-! ## Claim C9 (code_bug) -/

/-- C9: the claim says that after a successful `Insert`, if the follow-up
`Get` fetching the label fingerprint fails, execution does not proceed to
read `LabelFingerprint` from the absent instance. The code violates this:
at source lines 146-149 a `Get` error is only logged, and line 155 then
reads `inst.LabelFingerprint` from the nil instance pointer — a nil-pointer
dereference (runtime panic), witnessed here at a concrete input where
`Insert` succeeds and `Get` fails. -/
theorem create_labels_nil_deref_on_get_failure :
    createComputeServiceInstance inputEx apiGetFailEx =
      (inputEx, CreateOutcome.nilDeref) := rfl

/-! ## Claim C10 (confirmed) -/

/-- C10: every error of the per-tick `Instances.Get` describe call during
the readiness wait — whatever its cause — is classified as the
`"PERMISSION DENIED"` sentinel and makes the wait abort at that very tick
with the missing-permissions error, regardless of how many further ticks
would have been available: no describe error is ever retried. -/
theorem describe_error_always_permission_denied (name e : String)
    (rest : List (Except String String)) :
    describeComputeServiceInstances (Except.error e) =
        ("PERMISSION DENIED", some e) ∧
      waitForComputeServiceInstanceCompletion name (Except.error e :: rest) =
        PollResult.error ("missing required permissions for account: " ++ e) :=
  ⟨rfl, rfl⟩

/-! ## Claim C4 (confirmed) -/

/-- C4: for every provider status string in
{STOPPING, STOPPED, TERMINATED, SUSPENDED} the readiness wait terminates
with a fatal error and never reports success; for RUNNING it succeeds; and
for every status the code does not recognize — PROVISIONING, STAGING, the
empty status and arbitrary unrecognized strings (anything outside the
statuses and sentinels handled by the two switches) — the tick continues
the poll unchanged, so the wait keeps polling until RUNNING, a fatal state,
PERMISSION DENIED, or the deadline. -/
theorem awaitRunning_status_classification (name s : String)
    (rest : List (Except String String)) (ticks : List TickResult) :
    ((s = "STOPPING" ∨ s = "STOPPED" ∨ s = "TERMINATED" ∨ s = "SUSPENDED") →
      ∃ e, waitForComputeServiceInstanceCompletion name (Except.ok s :: rest) =
          PollResult.error e ∧
        waitForComputeServiceInstanceCompletion name (Except.ok s :: rest) ≠
          PollResult.success) ∧
    (¬ s ∈ ["RUNNING", "FATAL", "PERMISSION DENIED", "STOPPING", "STOPPED",
        "TERMINATED", "SUSPENDED"] →
      waitTick name (Except.ok s) = TickResult.cont ∧
        pollImmediate (waitTick name (Except.ok s) :: ticks) =
          pollImmediate ticks) ∧
    (s = "RUNNING" →
      waitForComputeServiceInstanceCompletion name (Except.ok s :: rest) =
        PollResult.success) := by
  refine ⟨?_, ?_, ?_⟩
  · rintro (rfl | rfl | rfl | rfl) <;>
      exact ⟨_, rfl, fun hcon => PollResult.noConfusion hcon⟩
  · intro h
    simp only [List.mem_cons, List.not_mem_nil, or_false, not_or] at h
    obtain ⟨h1, h2, h3, h4, h5, h6, h7⟩ := h
    have hc : waitTick name (Except.ok s) = TickResult.cont := by
      simp [waitTick, describeComputeServiceInstances, h1, h2, h3, h4, h5, h6, h7]
    exact ⟨hc, by rw [hc]; rfl⟩
  · rintro rfl
    rfl

/-- C4, witness: at a concrete fatal status the wait errors out, and at a
concrete pending status the tick is skipped without touching the result of
the remaining poll. -/
theorem awaitRunning_status_classification_witness :
    (∃ e, waitForComputeServiceInstanceCompletion "verifier-42"
          [Except.ok "STOPPED"] = PollResult.error e ∧
        waitForComputeServiceInstanceCompletion "verifier-42"
          [Except.ok "STOPPED"] ≠ PollResult.success) ∧
      (waitTick "verifier-42" (Except.ok "PROVISIONING") = TickResult.cont ∧
        pollImmediate [waitTick "verifier-42" (Except.ok "PROVISIONING"),
            TickResult.done] = pollImmediate [TickResult.done]) :=
  ⟨(awaitRunning_status_classification "verifier-42" "STOPPED" [] []).1
      (Or.inr (Or.inl rfl)),
    (awaitRunning_status_classification "verifier-42" "PROVISIONING" []
        [TickResult.done]).2.1 (by decide)⟩

/-! ## Claim C5 (confirmed) -/

/-- C5: on every console-poll tick whose fetch lacks the completion marker
(no output object yet, or text without the marker) nothing is recorded on
the result — even if failure or unreachable patterns already appear in the
partial text — and the accumulator reaches the marker tick untouched; the
parse happens exactly once, on the tick where the marker first appears, and
that tick ends the poll (later fetches are never consulted). If the marker
never appears, the poll times out with the accumulator still untouched. -/
theorem consoleAnalyzer_marker_gate
    (pre rest : List (Except String (Option String))) (text : String)
    (out : Output)
    (hpre : ∀ f ∈ pre, fetchLacksMarker f = true)
    (hmark : containsStr text reVerifyPattern = true) :
    consoleLoop (pre ++ Except.ok (some text) :: rest) out =
        (PollResult.success, consoleParse text out) ∧
      consoleLoop pre out = (PollResult.timedOut, out) := by
  constructor
  · rw [consoleLoop_append_of_lacksMarker pre _ out hpre]
    simp only [consoleLoop, consoleTick_done_of_marker text out hmark]
  · have h := consoleLoop_append_of_lacksMarker pre [] out hpre
    rw [List.append_nil] at h
    rw [h]
    rfl

/-- C5, witness: two pre-marker fetches (one empty, one already containing a
failure line and an unreachable line) record nothing, and the marker tick
parses once and ends the poll. -/
theorem consoleAnalyzer_marker_gate_witness :
    consoleLoop
        ([Except.ok none,
          Except.ok (some "Failed to connect\nUnable to reach early.example.com\n")] ++
          Except.ok (some "Unable to reach late.example.com\nUSERDATA END\n") :: [])
        Output.empty =
      (PollResult.success,
        consoleParse "Unable to reach late.example.com\nUSERDATA END\n"
          Output.empty) ∧
    consoleLoop
        [Except.ok none,
          Except.ok (some "Failed to connect\nUnable to reach early.example.com\n")]
        Output.empty = (PollResult.timedOut, Output.empty) :=
  consoleAnalyzer_marker_gate
    [Except.ok none,
      Except.ok (some "Failed to connect\nUnable to reach early.example.com\n")]
    [] "Unable to reach late.example.com\nUSERDATA END\n" Output.empty
    (by decide) (by decide)

/-! ## Claim C6 (confirmed) -/

/-- C6: once the completion marker is present in the console text, the tick
parses and ends the poll, and exactly one aggregate connectivity failure is
recorded on the result when one or more lines match a failure indicator
("Cannot", "Could not", "Failed", "command not found"; case-sensitive, per
line) — however many matching lines there are — and none is recorded when no
line matches. -/
theorem connectivity_failure_aggregate (text : String) (out : Output)
    (hmark : containsStr text reVerifyPattern = true) :
    (consoleTick (Except.ok (some text)) out).1 = TickResult.done ∧
      ((consoleTick (Except.ok (some text)) out).2).exceptions =
        out.exceptions ++
          (if (notFoundMatch text).length > 0 then [internetConnectivityMsg]
           else []) := by
  rw [consoleTick_done_of_marker text out hmark]
  refine ⟨rfl, ?_⟩
  show (consoleParse text out).exceptions = _
  simp only [consoleParse]
  by_cases hcond : 0 < (notFoundMatch (renderSerialPortOutput text)).length
  · rw [if_pos hcond, if_pos ((notFoundMatch_render_pos_iff text).mp hcond)]
    rfl
  · rw [if_neg hcond,
      if_neg (fun hr => hcond ((notFoundMatch_render_pos_iff text).mpr hr))]
    simp [Output.setEgressFailures]

/-- C6, witness: a marker text with two "Failed" lines records exactly one
aggregate connectivity failure; a marker text with no failure-indicator line
records none. -/
theorem connectivity_failure_aggregate_witness :
    ((consoleTick (Except.ok (some "USERDATA END\nFailed to connect\nFailed again\n"))
        Output.empty).2).exceptions = [internetConnectivityMsg] ∧
      ((consoleTick (Except.ok (some "all well\nUSERDATA END\n"))
          Output.empty).2).exceptions = [] := by
  constructor
  · rw [(connectivity_failure_aggregate
        "USERDATA END\nFailed to connect\nFailed again\n" Output.empty
        (by decide)).2]
    decide
  · rw [(connectivity_failure_aggregate "all well\nUSERDATA END\n" Output.empty
        (by decide)).2]
    decide

/-! ## Claim C3 (corrected) -/

/-- C3, counterexample. The claim says the analyzer records, for each
occurrence of the pattern "Unable to reach <token>", the matched token — the
host string alone, e.g. `host1.example.com`. It does not, twice over: the
scans run on the `%#v` rendering of the output object (source line 251), in
which the newline between the two unreachable lines appears as the two
characters backslash-n, so the `\S+` token of the first match runs across
the line end and swallows the "Unable" of the second occurrence; and
`FindAllString` (source line 284) returns the text of the whole match, so
the recorded string keeps the "Unable to reach " prefix. At the concrete
marker text with two unreachable lines, the recorded list is the single
merged whole match, not the two claimed tokens. -/
theorem unreachable_records_not_tokens_counterexample :
    ((consoleTick
        (Except.ok (some "USERDATA END\nUnable to reach host1.example.com\nUnable to reach host2.example.com\n"))
        Output.empty).2).egressFailures =
      ["Unable to reach host1.example.com\\nUnable"] ∧
    ¬ ((consoleTick
        (Except.ok (some "USERDATA END\nUnable to reach host1.example.com\nUnable to reach host2.example.com\n"))
        Output.empty).2).egressFailures =
      ["host1.example.com", "host2.example.com"] := by decide

/-- C3, amended: once the completion marker is present, the analyzer records
as the unreachable-endpoint list exactly the whole-match strings of the
pattern "Unable to reach <token>" over the `%#v` rendering of the console
output — each entry being the literal "Unable to reach " followed by a
non-empty token of characters that are non-space in the rendering (so a
token may cross an original line end through the escaped newline and
swallow a following occurrence), not the host string alone — order-preserving
and independent of whether the failure-indicator scan also fired. -/
theorem unreachable_records_full_matches (text : String) (out : Output)
    (hmark : containsStr text reVerifyPattern = true) :
    ((consoleTick (Except.ok (some text)) out).2).egressFailures =
        findAllUnreachable (renderSerialPortOutput text) ∧
      ∀ m ∈ findAllUnreachable (renderSerialPortOutput text),
        ∃ tok : List Char, tok ≠ [] ∧
          (∀ c ∈ tok, isGoSpace c = false) ∧
          m = unreachableLiteral ++ String.mk tok := by
  constructor
  · rw [consoleTick_done_of_marker text out hmark]
    show (consoleParse text out).egressFailures = _
    simp only [consoleParse]
    split <;> rfl
  · intro m hm
    exact scanUnreachable_shape (renderSerialPortOutput text).data.length
      (renderSerialPortOutput text).data m hm

/-- C3 (amended), witness: at a concrete marker text with two unreachable
lines the recorded list is exactly the match list of the rendering (here a
single merged whole match). -/
theorem unreachable_records_full_matches_witness :
    ((consoleTick
        (Except.ok (some "USERDATA END\nUnable to reach a.test\nfine\nUnable to reach b.test\n"))
        Output.empty).2).egressFailures =
      findAllUnreachable
        (renderSerialPortOutput
          "USERDATA END\nUnable to reach a.test\nfine\nUnable to reach b.test\n") :=
  (unreachable_records_full_matches
    "USERDATA END\nUnable to reach a.test\nfine\nUnable to reach b.test\n"
    Output.empty (by decide)).1

/-! ## Claim C1 (corrected) -/

/-- C1, counterexample. The claim says `terminate` is never invoked on the
immediate-create-failure path (no instance exists there). In the code it
is: on a create error, `validateEgress` calls
`terminateComputeServiceInstance` on the generated instance name before
recording the error (source line 365). At a concrete run whose
`Instances.Insert` fails, one terminate call is performed, not zero. -/
theorem terminate_on_create_failure_counterexample :
    (validateEgress cfgEx "subnet" "" "" 60 proxyEx envCreateFailEx).terminateCount = 1 ∧
      ¬ (validateEgress cfgEx "subnet" "" "" 60 proxyEx
          envCreateFailEx).terminateCount = 0 := by decide

/-- C1, amended: on every exit path of `validateEgress` that returns a
result — including the immediate-create-failure path, where termination is
attempted on the generated instance name — `terminate` is invoked exactly
once; only the nil-dereference panic path (fingerprint `Get` failure inside
creation) returns no result and performs no terminate call. -/
theorem validateEgress_terminate_exactly_once (cfg : ClientCfg)
    (vpc img kms : String) (t : Nat) (p : ProxyConfig) (env : RunEnv)
    (h : validateEgress cfg vpc img kms t p env ≠ RunResult.panicked) :
    (validateEgress cfg vpc img kms t p env).terminateCount = 1 := by
  rw [validateEgress_cases] at h ⊢
  cases hoc : runCreateOutcome cfg vpc img t p env with
  | errored e => rfl
  | nilDeref =>
    rw [hoc] at h
    exact absurd rfl h
  | ok =>
    cases hw : pollResultError
        (waitForComputeServiceInstanceCompletion (instanceNameOf env)
          env.waitGetResults) with
    | some e => rfl
    | none => rfl

/-- C1 (amended), witness: a fully successful concrete run terminates its
instance exactly once. -/
theorem validateEgress_terminate_exactly_once_witness :
    (validateEgress cfgEx "subnet" "" "" 60 proxyEx envSuccessEx).terminateCount = 1 :=
  validateEgress_terminate_exactly_once cfgEx "subnet" "" "" 60 proxyEx
    envSuccessEx (by decide)

/-! ## Claim C7 (corrected) -/

/-- C7, counterexample. The claim says `validateEgress` always returns a
`ValidationResult` to the caller. On the run where `Insert` succeeds but the
fingerprint `Get` fails, the nil-pointer dereference of
`createComputeServiceInstance` (source line 155) panics instead: no result
reaches the caller. -/
theorem validateEgress_panics_counterexample :
    validateEgress cfgEx "subnet" "" "" 60 proxyEx envGetFailEx =
      RunResult.panicked := by decide

/-- C7, amended: except on the nil-dereference panic path (fingerprint `Get`
failure inside creation), every `validateEgress` run returns a
`ValidationResult`, and every control error the run encounters — a creation
error, a readiness-wait error or timeout, an analysis error or timeout — is
recorded among the returned result's failures rather than raised to the
caller. -/
theorem validateEgress_returns_result_recording_errors (cfg : ClientCfg)
    (vpc img kms : String) (t : Nat) (p : ProxyConfig) (env : RunEnv)
    (h : runCreateOutcome cfg vpc img t p env ≠ CreateOutcome.nilDeref) :
    ∃ out n, validateEgress cfg vpc img kms t p env = RunResult.ret out n ∧
      (∀ e, runCreateOutcome cfg vpc img t p env = CreateOutcome.errored e →
        e ∈ out.errors) ∧
      (runCreateOutcome cfg vpc img t p env = CreateOutcome.ok →
        (∀ e, runWaitError env = some e → e ∈ out.errors) ∧
        (runWaitError env = none →
          ∀ e, runConsoleError env = some e → e ∈ out.errors)) := by
  rw [validateEgress_cases]
  cases hoc : runCreateOutcome cfg vpc img t p env with
  | nilDeref => exact absurd hoc h
  | errored e =>
    refine ⟨_, 1, rfl, ?_, ?_⟩
    · intro e2 he2
      injection he2 with hee
      subst hee
      exact Output.self_mem_errors_addError _ e
    · intro hok
      exact absurd hok (by simp)
  | ok =>
    cases hw : pollResultError
        (waitForComputeServiceInstanceCompletion (instanceNameOf env)
          env.waitGetResults) with
    | some e =>
      refine ⟨_, 1, rfl, ?_, ?_⟩
      · intro e2 he2
        exact absurd he2 (by simp)
      · refine fun _ => ⟨?_, ?_⟩
        · intro e2 he2
          simp only [runWaitError] at he2
          rw [hw] at he2
          injection he2 with hee
          subst hee
          exact Output.self_mem_errors_addError _ e
        · intro hnone
          simp only [runWaitError] at hnone
          rw [hw] at hnone
          exact Option.noConfusion hnone
    | none =>
      refine ⟨_, 1, rfl, ?_, ?_⟩
      · intro e2 he2
        exact absurd he2 (by simp)
      · refine fun _ => ⟨?_, ?_⟩
        · intro e2 he2
          simp only [runWaitError] at he2
          rw [hw] at he2
          exact Option.noConfusion he2
        · intro _ e2 he2
          simp only [runConsoleError] at he2
          rw [he2]
          exact Output.mem_errors_addError _ env.stopError e2
            (Output.self_mem_errors_addError _ e2)

/-- C7 (amended), witness: a concrete run whose readiness wait times out
returns a result recording the timeout error. -/
theorem validateEgress_returns_result_recording_errors_witness :
    ∃ out n, validateEgress cfgEx "subnet" "" "" 60 proxyEx envWaitTimeoutEx =
        RunResult.ret out n ∧
      (∀ e, runCreateOutcome cfgEx "subnet" "" 60 proxyEx envWaitTimeoutEx =
          CreateOutcome.errored e → e ∈ out.errors) ∧
      (runCreateOutcome cfgEx "subnet" "" 60 proxyEx envWaitTimeoutEx =
          CreateOutcome.ok →
        (∀ e, runWaitError envWaitTimeoutEx = some e → e ∈ out.errors) ∧
        (runWaitError envWaitTimeoutEx = none →
          ∀ e, runConsoleError envWaitTimeoutEx = some e → e ∈ out.errors)) :=
  validateEgress_returns_result_recording_errors cfgEx "subnet" "" "" 60
    proxyEx envWaitTimeoutEx (by decide)

end OsdNetworkVerifier
